import Mathlib

set_option maxRecDepth 4000
set_option maxHeartbeats 4000000

/-!
Shallow embedding of the CNS naming service of this repository
(src/src/cns.ts) together with the parts of its hashing and
registry/resolver protocol that the source file uses.

Numbers are `Nat` with explicit reduction modulo 2^64 where 64-bit
overflow matters; fallible operations return `Except`.
-/

/-! ## Keccak-256

Modelled from the spec: the namehash module (cns/contract/namehash) is not
under src/.  Section 4.1 of the spec fixes the algorithm
`next = H(prev || H(label))` over a fixed cryptographic hash function `H`;
`H` is taken to be Keccak-256, the only choice consistent with the
regression fixtures asserted by src/src/Cns.test.ts (e.g. the namehash of
the bare suffix).  Lanes are 64-bit values kept as `Nat` masked by 2^64-1.
-/

def mask64 : Nat := 2 ^ 64 - 1

def rotl64 (n r : Nat) : Nat := ((n <<< r) ||| (n >>> (64 - r))) &&& mask64

def keccakRC : List Nat :=
  [1, 32898,
   9223372036854808714, 9223372039002292224,
   32907, 2147483649,
   9223372039002292353, 9223372036854808585,
   138, 136,
   2147516425, 2147483658,
   2147516555, 9223372036854775947,
   9223372036854808713, 9223372036854808579,
   9223372036854808578, 9223372036854775936,
   32778, 9223372039002259466,
   9223372039002292353, 9223372036854808704,
   2147483649, 9223372039002292232]

def rhoOff : List (List Nat) :=
  [[0, 1, 62, 28, 27],
   [36, 44, 6, 55, 20],
   [3, 10, 43, 25, 39],
   [41, 45, 15, 21, 8],
   [18, 2, 61, 56, 14]]

/-- Rotation offset of lane (x, y). -/
def rhoAt (x y : Nat) : Nat := (rhoOff.getD y []).getD x 0

/-- Lane (x, y) of a 25-lane state stored row-major as `x + 5 * y`. -/
def lane (st : List Nat) (x y : Nat) : Nat := st.getD (x + 5 * y) 0

def theta (st : List Nat) : List Nat :=
  let C := (List.range 5).map fun x =>
    lane st x 0 ^^^ lane st x 1 ^^^ lane st x 2 ^^^ lane st x 3 ^^^ lane st x 4
  let D := (List.range 5).map fun x =>
    C.getD ((x + 4) % 5) 0 ^^^ rotl64 (C.getD ((x + 1) % 5) 0) 1
  (List.range 25).map fun i => st.getD i 0 ^^^ D.getD (i % 5) 0

def rhoPi (st : List Nat) : List Nat :=
  (List.range 25).map fun i =>
    let X := i % 5
    let Y := i / 5
    let x := (X + 3 * Y) % 5
    rotl64 (lane st x X) (rhoAt x X)

def chi (st : List Nat) : List Nat :=
  (List.range 25).map fun i =>
    let x := i % 5
    let y := i / 5
    lane st x y ^^^ ((lane st ((x + 1) % 5) y ^^^ mask64) &&& lane st ((x + 2) % 5) y)

def keccakRound (st : List Nat) (r : Nat) : List Nat :=
  let st := chi (rhoPi (theta st))
  st.set 0 (st.getD 0 0 ^^^ keccakRC.getD r 0)

def keccakF (st : List Nat) : List Nat := (List.range 24).foldl keccakRound st

/-- Keccak (pre-SHA-3) padding for the 1088-bit rate: 0x01 then zeros then 0x80. -/
def padKeccak (msg : List Nat) : List Nat :=
  let padLen := 136 - msg.length % 136
  if padLen = 1 then msg ++ [0x81]
  else msg ++ 0x01 :: (List.replicate (padLen - 2) 0 ++ [0x80])

def laneOfBytes (bs : List Nat) : Nat := bs.foldr (fun b acc => acc * 256 + b) 0

def xorBlock (st block : List Nat) : List Nat :=
  (List.range 25).map fun i =>
    if i < 17 then st.getD i 0 ^^^ laneOfBytes ((block.drop (8 * i)).take 8) else st.getD i 0

def toBlocks : Nat → List Nat → List (List Nat)
  | 0, _ => []
  | _, [] => []
  | fuel + 1, l => l.take 136 :: toBlocks fuel (l.drop 136)

def absorb (msg : List Nat) : List Nat :=
  let padded := padKeccak msg
  (toBlocks padded.length padded).foldl (fun st b => keccakF (xorBlock st b)) (List.replicate 25 0)

def bytesOfLane (n : Nat) : List Nat := (List.range 8).map fun i => n >>> (8 * i) % 256

def keccak256 (msg : List Nat) : List Nat := (((absorb msg).take 4).map bytesOfLane).flatten

/-! ## Byte and hex plumbing -/

def hexDigitChar (n : Nat) : Char := if n < 10 then Char.ofNat (48 + n) else Char.ofNat (87 + n)

def bytesToHex (bs : List Nat) : List Char :=
  (bs.map fun b => [hexDigitChar (b / 16), hexDigitChar (b % 16)]).flatten

def hexVal (c : Char) : Option Nat :=
  if '0' ≤ c ∧ c ≤ '9' then some (c.toNat - 48)
  else if 'a' ≤ c ∧ c ≤ 'f' then some (c.toNat - 87)
  else if 'A' ≤ c ∧ c ≤ 'F' then some (c.toNat - 55)
  else none

/-- Hex string to bytes, stopping at the first invalid pair (the behaviour of
JS `Buffer.from(s, 'hex')`). -/
def hexToBytes : List Char → List Nat
  | a :: b :: rest =>
    match hexVal a, hexVal b with
    | some hi, some lo => (16 * hi + lo) :: hexToBytes rest
    | _, _ => []
  | _ => []

def utf8Char (c : Char) : List Nat :=
  let n := c.toNat
  if n < 128 then [n]
  else if n < 2048 then [192 + n / 64, 128 + n % 64]
  else if n < 65536 then [224 + n / 4096, 128 + n / 64 % 64, 128 + n % 64]
  else [240 + n / 262144, 128 + n / 4096 % 64, 128 + n / 64 % 64, 128 + n % 64]

def utf8 (cs : List Char) : List Nat := (cs.map utf8Char).flatten

/-- JS `String.prototype.split` with a single-character separator and no limit. -/
def jsSplit (sep : Char) : List Char → List (List Char)
  | [] => [[]]
  | c :: rest =>
    if c = sep then [] :: jsSplit sep rest
    else
      match jsSplit sep rest with
      | [] => [[c]]
      | h :: t => (c :: h) :: t

/-! ## The namehash module

Modelled from the spec (§4.1): split the domain into labels on '.', start
from the all-zero root hash (64 hex zeros) and fold right-to-left with
`next = H(prev || H(label))`, where the intermediate values travel as bare
hex strings; the exported hash carries a "0x" prefix, and `childhash`
strips an optional "0x" from the parent it receives, returning the prefix
according to its options (the shapes are pinned by src/src/Cns.test.ts,
which feeds `childhash` both bare and 0x-prefixed parents). -/

def childhashCore (parentHex label : List Char) : List Char :=
  bytesToHex (keccak256 (hexToBytes (parentHex ++ bytesToHex (keccak256 (utf8 label)))))

def zeros64 : List Char := List.replicate 64 '0'

def hashCore (cs : List Char) : List Char := ((jsSplit '.' cs).reverse).foldl childhashCore zeros64

def strip0x : List Char → List Char
  | '0' :: 'x' :: rest => rest
  | cs => cs

/-- The options record of `childhash`; its single field is called `prefix`
in the source. -/
structure NamehashOptions where
  pfx : Bool
  deriving DecidableEq

def Namehash.hash (domain : String) : String := ⟨'0' :: 'x' :: hashCore domain.data⟩

def Namehash.childhash (parent label : String)
    (options : NamehashOptions := { pfx := true }) : String :=
  let node := childhashCore (strip0x parent.data) label.data
  if options.pfx then ⟨'0' :: 'x' :: node⟩ else ⟨node⟩

/-! ## Resolution errors

Modelled from the spec: resolutionError.ts is not under src/.  Section 7
fixes the kind enumeration and §4.2 the context fields.  A JS exception is
either such a structured error or a plain `Error` with a message
(`JsError.plain`), which cns.ts still throws in two places. -/

inductive ResolutionErrorCode where
  | UnregisteredDomain
  | UnspecifiedResolver
  | RecordNotFound
  | UnspecifiedCurrency
  | UnsupportedDomain
  | MethodNotSupported
  | ConfigurationError
  deriving DecidableEq

structure ErrContext where
  domain : Option String := none
  recordName : Option String := none
  currencyTicker : Option String := none
  method : Option String := none
  deriving DecidableEq

inductive JsError where
  | resolution (code : ResolutionErrorCode) (context : ErrContext)
  | plain (message : String)
  deriving DecidableEq

/-- The kind of a structured resolution error, if the outcome failed with one. -/
def errorKind? {α : Type} : Except JsError α → Option ResolutionErrorCode
  | .error (.resolution c _) => some c
  | _ => none

/-! ## isSupportedDomain (src/src/cns.ts lines 68-73)

`domain === 'crypto' || (domain.indexOf('.') > 0 && /^.{1,}\.(crypto)$/.test(domain))`

The JS regex `.` matches every UTF-16 unit except the four line
terminators; anchored on both sides, the regex accepts exactly the strings
`s ++ ".crypto"` with `s` non-empty and free of line terminators. -/

def dotMatches (c : Char) : Bool :=
  !(c == '\n' || c == '\r' || c == '\u2028' || c == '\u2029')

def indexOfFrom : List Char → Char → Nat → Int
  | [], _, _ => -1
  | c :: rest, ch, k => if c = ch then (k : Int) else indexOfFrom rest ch (k + 1)

/-- JS `String.prototype.indexOf` for a single character. -/
def jsIndexOf (s : List Char) (c : Char) : Int := indexOfFrom s c 0

def cryptoSuffix : List Char := ['.', 'c', 'r', 'y', 'p', 't', 'o']

def regexTest (cs : List Char) : Bool :=
  decide (8 ≤ cs.length) && decide (cs.drop (cs.length - 7) = cryptoSuffix)
    && (cs.take (cs.length - 7)).all dotMatches

def isSupportedDomain (domain : String) : Bool :=
  domain == "crypto" || (decide (0 < jsIndexOf domain.data '.') && regexTest domain.data)

/-! ## The Cns namehash and childhash wrappers (src/src/cns.ts lines 133-149) -/

/-- `namehash` of cns.ts first calls `ensureSupportedDomain`.  Modelled from
the spec: `ensureSupportedDomain` lives in the base class, which is not
under src/; per §4.5/§7 an unclaimed domain is rejected with the
`UnsupportedDomain` kind carrying the domain. -/
def Cns.namehash (domain : String) : Except JsError String :=
  if isSupportedDomain domain then .ok (Namehash.hash domain)
  else .error (.resolution .UnsupportedDomain { domain := some domain })

def Cns.childhash (parent label : String)
    (options : NamehashOptions := { pfx := true }) : String :=
  Namehash.childhash parent label options

/-! ## The contract transport

Modelled from the spec: the base class (namingService.ts) and the contract
plumbing are not under src/.  A backend state gives the outcome of each
boundary call of §6 (`resolverOf`, `ownerOf`, `get`) already wrapped by the
base class `callMethod`: a transport-level absence surfaces as a structured
error, whose kind `RecordNotFound` is pinned by the downgrade target of
`getResolver` (cns.ts line 154) and the test at src/src/Cns.test.ts:50-59. -/

structure Backend where
  resolverOf : String → Except JsError String
  ownerOf : String → Except JsError String
  getRec : String → String → String → Except JsError String

/-- Modelled from the spec (§4.2, §9): run an operation and, if it failed
with a structured error of exactly the given kind, substitute an absent
result; propagate every other failure unchanged. -/
def ignoreResolutionError (code : ResolutionErrorCode) (op : Except JsError String) :
    Except JsError (Option String) :=
  match op with
  | .ok v => .ok (some v)
  | .error (.resolution c ctx) =>
    if c = code then .ok none else .error (.resolution c ctx)
  | .error e => .error e

/-- src/src/cns.ts lines 152-157. -/
def getResolver (b : Backend) (tokenId : String) : Except JsError (Option String) :=
  ignoreResolutionError .RecordNotFound (b.resolverOf tokenId)

/-- A record fetch through a resolver address that may be absent: building a
contract on an undefined address and calling it fails; the wrapped kind is
again `RecordNotFound` (src/src/Cns.test.ts:50-59 observes exactly this
kind when `getResolver` yields no resolver). -/
def callGet (b : Backend) (resolverAddr : Option String) (key tokenId : String) :
    Except JsError String :=
  match resolverAddr with
  | none => .error (.resolution .RecordNotFound {})
  | some a => b.getRec a key tokenId

/-- Modelled from the spec: `isNullAddress` of types.ts (not under src/),
a null/zero address sentinel in either 20- or 32-byte width. -/
def isNullAddress (v : String) : Bool :=
  v == "0x0000000000000000000000000000000000000000" ||
    v == "0x0000000000000000000000000000000000000000000000000000000000000000"

/-- src/src/cns.ts lines 160-163. -/
def owner (b : Backend) (domain : String) : Except JsError String :=
  match Cns.namehash domain with
  | .error e => .error e
  | .ok tokenId => b.ownerOf tokenId

/-- src/src/cns.ts lines 196-211. -/
def record (b : Backend) (domain key : String) : Except JsError String :=
  match Cns.namehash domain with
  | .error e => .error e
  | .ok tokenId =>
    match getResolver b tokenId with
    | .error e => .error e
    | .ok resolver =>
      match callGet b resolver key tokenId with
      | .error e => .error e
      | .ok recordVal =>
        if recordVal == "" || isNullAddress recordVal then
          .error (.resolution .RecordNotFound
            { recordName := some key, domain := some domain })
        else .ok recordVal

/-- src/src/cns.ts lines 114-126. -/
def fetchAddress (b : Backend) (resolver : Option String) (tokenId coinName : String) :
    Except JsError String :=
  callGet b resolver ("crypto." ++ coinName.toUpper ++ ".address") tokenId

/-- src/src/cns.ts lines 94-107.  Note the source resolves the resolver for
the raw `domain`, not for `namehash(domain)` (line 95), and hashes the
domain only afterwards, as the argument of `fetchAddress`. -/
def address (b : Backend) (domain currencyTicker : String) : Except JsError String :=
  match getResolver b domain with
  | .error e => .error e
  | .ok resolver =>
    match Cns.namehash domain with
    | .error e => .error e
    | .ok tokenId =>
      match fetchAddress b resolver tokenId currencyTicker with
      | .error e => .error e
      | .ok addr =>
        if addr == "" then
          .error (.resolution .UnspecifiedCurrency
            { domain := some domain, currencyTicker := some currencyTicker })
        else .ok addr

/-- Modelled from the spec: the aggregate resolution response shape
(types.ts, not under src/); its fields are irrelevant here because the CNS
`resolve` never succeeds. -/
structure ResolutionResponse where
  addresses : List (String × String) := []
  deriving DecidableEq

/-- src/src/cns.ts lines 81-83. -/
def resolve (_domain : String) : Except JsError ResolutionResponse :=
  .error (.plain "This method is unsupported for CNS")

/-! ## Construction (src/src/cns.ts lines 41-61)

Source/network normalization is out of scope per §1 of the spec; the
constructor is modelled on an already-normalized source, with the JS-falsy
absent string as "". -/

structure NamingServiceSource where
  network : String := ""
  url : String := ""
  registry : String := ""
  deriving DecidableEq

def RegistryMap (network : String) : Option String :=
  if network == "mainnet" then some "0xD1E5b0FF1287aA9f9A268759062E4Ab08b9Dacbe" else none

structure CnsInstance where
  network : String
  url : String
  registryAddress : Option String
  deriving DecidableEq

def construct (source : NamingServiceSource) : Except JsError CnsInstance :=
  if source.network == "" then
    .error (.plain "Unspecified network in Resolution CNS configuration")
  else if source.url == "" then
    .error (.plain "Unspecified url in Resolution CNS configuration")
  else
    .ok { network := source.network, url := source.url,
          registryAddress :=
            if source.registry == "" then RegistryMap source.network
            else some source.registry }



/-! ## Claim theorems -/

/-- C10: calling childhash without an options argument defaults to
prefix-normalized hashing: for every parent hash and label,
childhash(parent, label) equals childhash(parent, label, with the prefix
flag set). -/
theorem claimC10_default_options (parent label : String) :
    Cns.childhash parent label = Cns.childhash parent label { pfx := true } :=
  rfl

/-- C5 counterexample: resolve("brad.crypto") throws a plain JS Error, not a
structured resolution error, so it carries no MethodNotSupported kind. -/
theorem claimC5_counterexample :
    resolve "brad.crypto" = .error (.plain "This method is unsupported for CNS") ∧
    errorKind? (resolve "brad.crypto") = none :=
  ⟨rfl, rfl⟩

/-- C5 amended: for every domain string, resolve fails immediately and
unconditionally, before any transport interaction, with the raw Error
message "This method is unsupported for CNS" rather than a structured
resolution error of kind MethodNotSupported. -/
theorem claimC5_amended (domain : String) :
    resolve domain = .error (.plain "This method is unsupported for CNS") :=
  rfl

/-- The normalized source of C8's failing input: a missing network with a
present url. -/
def badSource : NamingServiceSource := { url := "https://mainnet.infura.io" }

/-- C8: constructing with a missing network throws the raw JS Error
"Unspecified network in Resolution CNS configuration" (cns.ts lines 46-48),
not a structured error of kind ConfigurationError as the constructor's own
doc comment (cns.ts line 39) promises. -/
theorem claimC8_constructor_raw_error :
    construct badSource = .error (.plain "Unspecified network in Resolution CNS configuration") ∧
    errorKind? (construct badSource) = none :=
  ⟨rfl, rfl⟩

/-- C9: namehash itself enforces domain support: whenever isSupportedDomain
is false it raises (a structured UnsupportedDomain error carrying the
domain) instead of returning a hash. -/
theorem claimC9_namehash_guard (domain : String) (h : isSupportedDomain domain = false) :
    Cns.namehash domain = .error (.resolution .UnsupportedDomain { domain := some domain }) := by
  simp [Cns.namehash, h]

theorem claimC9_witness :
    isSupportedDomain "brad.zil" = false ∧
    Cns.namehash "brad.zil" =
      .error (.resolution .UnsupportedDomain { domain := some "brad.zil" }) :=
  ⟨by decide, claimC9_namehash_guard "brad.zil" (by decide)⟩

/-- C7: getResolver substitutes an absent resolver exactly when the
underlying resolverOf call failed with the one kind RecordNotFound, and
propagates a success, a structured failure of any other kind, and a plain
failure unchanged. -/
theorem claimC7_ignore_combinator (b : Backend) (tokenId : String) :
    (∀ ctx, b.resolverOf tokenId = .error (.resolution .RecordNotFound ctx) →
      getResolver b tokenId = .ok none) ∧
    (∀ c ctx, c ≠ ResolutionErrorCode.RecordNotFound →
      b.resolverOf tokenId = .error (.resolution c ctx) →
      getResolver b tokenId = .error (.resolution c ctx)) ∧
    (∀ msg, b.resolverOf tokenId = .error (.plain msg) →
      getResolver b tokenId = .error (.plain msg)) ∧
    (∀ v, b.resolverOf tokenId = .ok v → getResolver b tokenId = .ok (some v)) := by
  refine ⟨fun ctx h => ?_, fun c ctx hc h => ?_, fun msg h => ?_, fun v h => ?_⟩
  · simp [getResolver, ignoreResolutionError, h]
  · simp [getResolver, ignoreResolutionError, h, hc]
  · simp [getResolver, ignoreResolutionError, h]
  · simp [getResolver, ignoreResolutionError, h]

def bC7 : Backend :=
  { resolverOf := fun _ => .error (.resolution .UnspecifiedResolver {}),
    ownerOf := fun _ => .ok "0xowner",
    getRec := fun _ _ _ => .ok "value" }

theorem claimC7_witness :
    bC7.resolverOf "token" = .error (.resolution .UnspecifiedResolver {}) ∧
    getResolver bC7 "token" = .error (.resolution .UnspecifiedResolver {}) :=
  ⟨rfl, (claimC7_ignore_combinator bC7 "token").2.1 .UnspecifiedResolver {} (by decide) rfl⟩

/-- A state whose registry has an owner for the token of brad.crypto but no
resolver: resolverOf fails with the absent-wrapped kind, ownerOf succeeds. -/
def bC1 : Backend :=
  { resolverOf := fun _ => .error (.resolution .RecordNotFound {}),
    ownerOf := fun _ => .ok "0x8aaD44321A86b170879d7A244c1e8d360c99DdA8",
    getRec := fun _ _ _ => .error (.resolution .RecordNotFound {}) }

/-- C1 counterexample: with the resolver absent and an owner present,
record("brad.crypto", key) fails with kind RecordNotFound, not with the
claimed UnspecifiedResolver; record performs no owner lookup at all. -/
theorem claimC1_counterexample :
    owner bC1 "brad.crypto" = .ok "0x8aaD44321A86b170879d7A244c1e8d360c99DdA8" ∧
    getResolver bC1 (Namehash.hash "brad.crypto") = .ok none ∧
    record bC1 "brad.crypto" "crypto.ETH.address" = .error (.resolution .RecordNotFound {}) ∧
    errorKind? (record bC1 "brad.crypto" "crypto.ETH.address") ≠
      some ResolutionErrorCode.UnspecifiedResolver :=
  ⟨rfl, rfl, rfl, by decide⟩

/-- C1 amended: record(domain, key) never disambiguates resolver absence
and never consults the owner: when the resolver lookup comes back absent it
fails with RecordNotFound (the wrapped transport failure of the record
fetch through the missing resolver); when the resolver exists and the
fetched value is empty or a null-address sentinel it fails with
RecordNotFound carrying recordName=key and the domain; otherwise it returns
the fetched value unchanged. -/
theorem claimC1_record_no_disambiguation (b : Backend) (domain key : String)
    (hsup : isSupportedDomain domain = true) :
    (∀ ctx, b.resolverOf (Namehash.hash domain) = .error (.resolution .RecordNotFound ctx) →
      record b domain key = .error (.resolution .RecordNotFound {})) ∧
    (∀ r v, b.resolverOf (Namehash.hash domain) = .ok r →
      b.getRec r key (Namehash.hash domain) = .ok v →
      (v == "" || isNullAddress v) = true →
      record b domain key =
        .error (.resolution .RecordNotFound { domain := some domain, recordName := some key })) ∧
    (∀ r v, b.resolverOf (Namehash.hash domain) = .ok r →
      b.getRec r key (Namehash.hash domain) = .ok v →
      (v == "" || isNullAddress v) = false →
      record b domain key = .ok v) := by
  refine ⟨fun ctx h => ?_, fun r v h1 h2 h3 => ?_, fun r v h1 h2 h3 => ?_⟩
  · simp [record, Cns.namehash, hsup, getResolver, ignoreResolutionError, callGet, h]
  · simp [record, Cns.namehash, hsup, getResolver, ignoreResolutionError, callGet, h1, h2, h3]
  · simp [record, Cns.namehash, hsup, getResolver, ignoreResolutionError, callGet, h1, h2, h3]

/-- A fully-populated state for the C1 witness: resolver present, a record
value stored under ipfs.html.value. -/
def bC1w : Backend :=
  { resolverOf := fun _ => .ok "0xBD5F5ec7ed5f19b53726344540296C02584A5237",
    ownerOf := fun _ => .ok "0xowner",
    getRec := fun _ key _ =>
      if key == "ipfs.html.value" then .ok "QmVaAtQbi3EtsfpKoLzALm6vXphdi2KjMgxEDKeGg6wHuK"
      else .error (.resolution .RecordNotFound {}) }

theorem claimC1_witness :
    isSupportedDomain "brad.crypto" = true ∧
    record bC1w "brad.crypto" "ipfs.html.value" =
      .ok "QmVaAtQbi3EtsfpKoLzALm6vXphdi2KjMgxEDKeGg6wHuK" :=
  ⟨by decide,
    (claimC1_record_no_disambiguation bC1w "brad.crypto" "ipfs.html.value" (by decide)).2.2
      "0xBD5F5ec7ed5f19b53726344540296C02584A5237"
      "QmVaAtQbi3EtsfpKoLzALm6vXphdi2KjMgxEDKeGg6wHuK" rfl rfl (by decide)⟩

/-- C2's failing state: the registry stores the resolver under the token
hash of brad.crypto (so resolverOf of any other string fails as absent),
and the resolver stores an ETH address record. -/
def bC2 : Backend :=
  { resolverOf := fun s =>
      if s == "brad.crypto" then .error (.resolution .RecordNotFound {})
      else .ok "0xBD5F5ec7ed5f19b53726344540296C02584A5237",
    ownerOf := fun _ => .ok "0xowner",
    getRec := fun _ key _ =>
      if key == "crypto.ETH.address" then .ok "0x45b31e01AA6f42F0549aD482BE81635ED3149abb"
      else .error (.resolution .RecordNotFound {}) }

/-- C2: address("brad.crypto", "ETH") asks the registry for the resolver of
the raw string "brad.crypto" (cns.ts line 95) instead of the token hash
that getResolver is declared to take, finds none and fails with
RecordNotFound, while record("brad.crypto", "crypto.ETH.address") on the
very same state resolves through the token hash and returns the stored
address: the two are not equivalent, and the failure is not
UnspecifiedCurrency either. -/
theorem claimC2_domain_not_hashed :
    record bC2 "brad.crypto" "crypto.ETH.address" =
      .ok "0x45b31e01AA6f42F0549aD482BE81635ED3149abb" ∧
    address bC2 "brad.crypto" "ETH" = .error (.resolution .RecordNotFound {}) ∧
    errorKind? (address bC2 "brad.crypto" "ETH") ≠ some ResolutionErrorCode.UnspecifiedCurrency :=
  ⟨rfl, rfl, by decide⟩

/-! ## Helper lemmas about strings and splitting -/

theorem strDataAppend (a b : String) : (a ++ b).data = a.data ++ b.data := by
  cases a; cases b; rfl

theorem strExt (a b : String) (h : a.data = b.data) : a = b := by
  cases a; cases b; exact congrArg String.mk h

theorem jsSplit_append (l p : List Char) (h : '.' ∉ l) :
    jsSplit '.' (l ++ '.' :: p) = l :: jsSplit '.' p := by
  induction l with
  | nil => simp [jsSplit]
  | cons c t ih =>
    have hct : ¬(c = '.') := fun hc => h (hc ▸ List.mem_cons_self c t)
    have ht : '.' ∉ t := fun hm => h (List.mem_cons_of_mem c hm)
    simp only [List.cons_append, jsSplit, hct, if_false, List.append_eq, ih ht]

theorem hashCore_append (l p : List Char) (h : '.' ∉ l) :
    hashCore (l ++ '.' :: p) = childhashCore (hashCore p) l := by
  unfold hashCore
  rw [jsSplit_append l p h]
  simp [List.foldl_append]

/-- The 64-zero root hash string that the repository's own test feeds to
childhash (src/src/Cns.test.ts:243). -/
def zeroHash64 : String := ⟨List.replicate 64 '0'⟩

/-- C4: for every supported domain of the form label + "." + parent with a
supported parent (a label contains no dot), hashing the child directly and
extending the parent's namehash by one childhash step agree; and the root
suffix is anchored: namehash("crypto") is childhash(ZERO_HASH, "crypto"). -/
theorem claimC4_recursive_identity (label parent : String)
    (hpar : isSupportedDomain parent = true)
    (hdom : isSupportedDomain (label ++ "." ++ parent) = true)
    (hlab : '.' ∉ label.data) :
    Cns.namehash (label ++ "." ++ parent) =
      (Cns.namehash parent).map (fun hp => Cns.childhash hp label) ∧
    Cns.namehash "crypto" = .ok (Cns.childhash zeroHash64 "crypto") := by
  constructor
  · have hdata : (label ++ "." ++ parent).data = label.data ++ '.' :: parent.data := by
      rw [strDataAppend, strDataAppend, List.append_assoc]; rfl
    have hmain : Namehash.hash (label ++ "." ++ parent) =
        Cns.childhash (Namehash.hash parent) label := by
      apply strExt
      have hrhs : (Cns.childhash (Namehash.hash parent) label).data =
          '0' :: 'x' :: childhashCore (hashCore parent.data) label.data := rfl
      rw [hrhs]
      show '0' :: 'x' :: hashCore (label ++ "." ++ parent).data = _
      rw [hdata, hashCore_append label.data parent.data hlab]
    simp [Cns.namehash, hpar, hdom, hmain, Except.map]
  · have hsplit : (jsSplit '.' "crypto".data).reverse = ["crypto".data] := by decide
    have hzero : strip0x zeroHash64.data = zeros64 := by decide
    have hcore : hashCore "crypto".data = childhashCore (strip0x zeroHash64.data) "crypto".data := by
      show (jsSplit '.' "crypto".data).reverse.foldl childhashCore zeros64 =
        childhashCore (strip0x zeroHash64.data) "crypto".data
      rw [hsplit, hzero, List.foldl_cons, List.foldl_nil]
    have hs : isSupportedDomain "crypto" = true := by decide
    simp only [Cns.namehash, hs, if_true]
    refine congrArg Except.ok (strExt _ _ ?_)
    show '0' :: 'x' :: hashCore "crypto".data = (Cns.childhash zeroHash64 "crypto").data
    have hcd : (Cns.childhash zeroHash64 "crypto").data =
        '0' :: 'x' :: childhashCore (strip0x zeroHash64.data) "crypto".data := rfl
    rw [hcd, hcore]

theorem claimC4_witness :
    isSupportedDomain "crypto" = true ∧
    isSupportedDomain ("brad" ++ "." ++ "crypto") = true ∧
    Cns.namehash ("brad" ++ "." ++ "crypto") =
      (Cns.namehash "crypto").map (fun hp => Cns.childhash hp "brad") :=
  ⟨by decide, by decide,
    (claimC4_recursive_identity "brad" "crypto" (by decide) (by decide) (by decide)).1⟩

theorem le_indexOfFrom (l : List Char) (ch : Char) (k : Nat) (h : ch ∈ l) :
    (k : Int) ≤ indexOfFrom l ch k := by
  induction l generalizing k with
  | nil => cases h
  | cons a t ih =>
    by_cases hac : a = ch
    · simp [indexOfFrom, hac]
    · have hmem : ch ∈ t := by
        cases h with
        | head => exact absurd rfl hac
        | tail _ hm => exact hm
      have hrec := ih (k + 1) hmem
      simp only [indexOfFrom, hac, if_false]
      omega

theorem indexOf_cons_pos (c : Char) (l : List Char) (ch : Char) (hc : c ≠ ch) (h : ch ∈ l) :
    0 < jsIndexOf (c :: l) ch := by
  show (0 : Int) < indexOfFrom (c :: l) ch 0
  have h1 : indexOfFrom (c :: l) ch 0 = indexOfFrom l ch 1 := by
    simp [indexOfFrom, hc]
  rw [h1]
  have hle := le_indexOfFrom l ch 1 h
  omega

/-- The amended support condition: the part before ".crypto" must be
non-empty, must not begin with a dot (JS indexOf('.') > 0), and must be
free of the four JS line terminators (the regex dot). -/
def supportedSpec (d : String) : Prop :=
  d = "crypto" ∨ ∃ s : String, d = s ++ ".crypto" ∧ s.data ≠ [] ∧
    s.data.head? ≠ some '.' ∧ s.data.all dotMatches = true

/-- C6 counterexample: ".a.crypto" ends in ".crypto" and has the non-empty
label "a" before the suffix, yet isSupportedDomain rejects it because the
first dot sits at index 0. -/
theorem claimC6_counterexample :
    ".a.crypto" = ".a" ++ ".crypto" ∧
    ((jsSplit '.' (".a" : String).data).any fun l => !l.isEmpty) = true ∧
    isSupportedDomain ".a.crypto" = false :=
  ⟨by decide, by decide, by decide⟩

/-- C6 amended: isSupportedDomain(domain) is true iff domain equals
"crypto", or domain is s ++ ".crypto" for a non-empty s that does not start
with '.' and contains no JS line terminator. -/
theorem claimC6_characterization (d : String) :
    isSupportedDomain d = true ↔ supportedSpec d := by
  constructor
  · intro h
    simp only [isSupportedDomain, Bool.or_eq_true, Bool.and_eq_true, beq_iff_eq,
      decide_eq_true_eq] at h
    rcases h with h | ⟨hidx, hr⟩
    · exact Or.inl h
    · simp only [regexTest, Bool.and_eq_true, decide_eq_true_eq] at hr
      obtain ⟨⟨hlen, hdrop⟩, hall⟩ := hr
      refine Or.inr ⟨⟨d.data.take (d.data.length - 7)⟩, ?_, ?_, ?_, ?_⟩
      · apply strExt
        rw [strDataAppend]
        show d.data = d.data.take (d.data.length - 7) ++ ".crypto".data
        have hcs : ".crypto".data = cryptoSuffix := rfl
        rw [hcs, ← hdrop, List.take_append_drop]
      · show d.data.take (d.data.length - 7) ≠ []
        intro hnil
        have hlt := congrArg List.length hnil
        rw [List.length_take] at hlt
        simp only [List.length_nil] at hlt
        omega
      · show (d.data.take (d.data.length - 7)).head? ≠ some '.'
        cases hcs : d.data with
        | nil => rw [hcs] at hlen; simp at hlen
        | cons c rest =>
          rw [hcs] at hlen hidx
          have hc : c ≠ '.' := by
            intro hceq
            rw [hceq] at hidx
            simp [jsIndexOf, indexOfFrom] at hidx
          obtain ⟨m, hm⟩ : ∃ m, (c :: rest).length - 7 = m + 1 := by
            refine ⟨(c :: rest).length - 8, ?_⟩
            simp only [List.length_cons] at hlen ⊢
            omega
          rw [hm, List.take_succ_cons]
          simp [hc]
      · show (d.data.take (d.data.length - 7)).all dotMatches = true
        exact hall
  · intro h
    rcases h with h | ⟨s, hd, hne, hhead, hall⟩
    · subst h; decide
    · subst hd
      have hdata : (s ++ ".crypto").data = s.data ++ cryptoSuffix := by
        rw [strDataAppend]; rfl
      simp only [isSupportedDomain, Bool.or_eq_true, Bool.and_eq_true, decide_eq_true_eq]
      refine Or.inr ⟨?_, ?_⟩
      · rw [hdata]
        cases hs : s.data with
        | nil => exact absurd hs hne
        | cons c rest =>
          have hc : c ≠ '.' := by rw [hs] at hhead; simpa using hhead
          have hmem : '.' ∈ rest ++ cryptoSuffix := by
            refine List.mem_append_right rest ?_
            exact List.mem_cons_self '.' _
          show (0 : Int) < jsIndexOf (c :: (rest ++ cryptoSuffix)) '.'
          exact indexOf_cons_pos c (rest ++ cryptoSuffix) '.' hc hmem
      · simp only [regexTest, hdata, Bool.and_eq_true, decide_eq_true_eq]
        have hlens : (s.data ++ cryptoSuffix).length = s.data.length + 7 := by
          simp [cryptoSuffix]
        have h7 : s.data.length + 7 - 7 = s.data.length := by omega
        rw [hlens, h7]
        refine ⟨⟨?_, ?_⟩, ?_⟩
        · have := List.length_pos.mpr hne
          omega
        · exact List.drop_left s.data cryptoSuffix
        · rw [List.take_left]
          exact hall

/-- C3: the four regression fixtures of the namehash engine, including the
hyphenated labels, which get no treatment beyond being fed (as whole
labels) to the hash function. -/
theorem claimC3_fixtures :
    Cns.namehash "crypto" =
      .ok "0x0f4a10a4f46c288cea365fcf45cccf0e9d901b945b9829ccdb54c10dc3cb7a6f" ∧
    Cns.namehash "-hello.crypto" =
      .ok "0xc4ad028bcae9b201104e15f872d3e85b182939b06829f75a128275177f2ff9b2" ∧
    Cns.namehash "hello-.crypto" =
      .ok "0x82eaa6ef14e438940bfd7747e0e4c4fec42af20cee28ddd0a7d79f52b1c59b72" ∧
    Cns.namehash "-hello-.crypto" =
      .ok "0x90cc1963ff09ce95ee2dbb3830df4f2115da9756e087a50283b3e65f6ffe2a4e" :=
  ⟨rfl, rfl, rfl, rfl⟩
